import Mathlib

/-!
Verification of the privacy-preserving aggregation pipeline of
open_workinghours (backend/app/aggregation.py and
backend/app/routers/analytics.py).

Modelling conventions:
* Python floats are modelled as exact rationals (ℚ).
* Randomness (secrets.SystemRandom().uniform, random.choice, random.random)
  is passed in as explicit oracle arguments: a uniform draw u, a triple of
  draws per cohort, or a pick function selecting resample indices.
* Calendar dates follow CPython `datetime`: a date is identified with its
  proleptic-Gregorian ordinal (an integer, day 1 = January 1 of year 1),
  and `ymd2ord`, `weekday`, `isocalendar`, `isoweek1monday` are transcribed
  from CPython so that `get_iso_week_bounds` can be analysed faithfully.
* The SQL result set and the published-statistics table are modelled as
  lists of records; the database query itself is external input.
* Python `round(x, 2)` is modelled by exact rounding to two decimals
  (`roundTo2`); the half-even versus half-up difference on exact ties is
  immaterial to every claim below.
-/

/-! ### Privacy parameters and the Laplace noise primitive (aggregation.py) -/

def K_MIN : ℕ := 11

def EPSILON : ℚ := 1

/-- Transcription of `laplace_noise(epsilon, sensitivity)`; the uniform draw
`u`, produced by `secrets.SystemRandom().uniform(-0.5, 0.5)`, is the explicit
randomness argument. -/
def laplace_noise (epsilon sensitivity u : ℚ) : ℚ :=
  let scale := sensitivity / epsilon
  if u < 0 then scale * (1 + u * 2) else -scale * (1 - u * 2)

/-- Per-record ceiling used by the sensitivity calculation: 24 * 7 hours. -/
def max_hours_per_week : ℚ := 24 * 7

/-- Per-cohort sensitivity `max_hours_per_week / n_users` (aggregation.py,
lines 138-141). -/
def sensitivity (n_users : ℕ) : ℚ := max_hours_per_week / n_users

/-- Line 148: `avg_planned_noised = max(0, avg_planned + noise_planned)`. -/
def avg_planned_noised (avg_planned noise_planned : ℚ) : ℚ :=
  max 0 (avg_planned + noise_planned)

/-- Line 149: `avg_actual_noised = max(0, avg_actual + noise_actual)`. -/
def avg_actual_noised (avg_actual noise_actual : ℚ) : ℚ :=
  max 0 (avg_actual + noise_actual)

/-- Line 150: `avg_overtime_noised = avg_overtime + noise_overtime`
(no clamping). -/
def avg_overtime_noised (avg_overtime noise_overtime : ℚ) : ℚ :=
  avg_overtime + noise_overtime

/-! ### Calendar model (CPython `datetime` internals and get_iso_week_bounds)

Integer division `/` and remainder `%` on ℤ below are Euclidean, which for
the positive divisors used here (4, 100, 400, 7) coincide with Python floor
division `//` and `%`. -/

/-- CPython `_is_leap(year)`. -/
def isLeapYear (y : ℤ) : Bool :=
  y % 4 == 0 && (y % 100 != 0 || y % 400 == 0)

/-- CPython `_DAYS_IN_MONTH[month]`. -/
def DAYS_IN_MONTH (m : ℤ) : ℤ :=
  if m = 1 then 31 else if m = 2 then 28 else if m = 3 then 31
  else if m = 4 then 30 else if m = 5 then 31 else if m = 6 then 30
  else if m = 7 then 31 else if m = 8 then 31 else if m = 9 then 30
  else if m = 10 then 31 else if m = 11 then 30 else 31

/-- CPython `_days_in_month(year, month)`. -/
def days_in_month (y m : ℤ) : ℤ :=
  if m = 2 ∧ isLeapYear y then 29 else DAYS_IN_MONTH m

/-- CPython `_DAYS_BEFORE_MONTH[month]`. -/
def DAYS_BEFORE_MONTH (m : ℤ) : ℤ :=
  if m = 1 then 0 else if m = 2 then 31 else if m = 3 then 59
  else if m = 4 then 90 else if m = 5 then 120 else if m = 6 then 151
  else if m = 7 then 181 else if m = 8 then 212 else if m = 9 then 243
  else if m = 10 then 273 else if m = 11 then 304 else 334

/-- CPython `_days_before_month(year, month)`. -/
def days_before_month (y m : ℤ) : ℤ :=
  DAYS_BEFORE_MONTH m + (if 2 < m ∧ isLeapYear y then 1 else 0)

/-- CPython `_days_before_year(year)`. -/
def days_before_year (y : ℤ) : ℤ :=
  (y - 1) * 365 + (y - 1) / 4 - (y - 1) / 100 + (y - 1) / 400

/-- CPython `_ymd2ord(year, month, day)`: proleptic-Gregorian ordinal. -/
def ymd2ord (y m d : ℤ) : ℤ :=
  days_before_year y + days_before_month y m + d

/-- CPython `date.weekday()`: Monday is 0, Sunday is 6. -/
def weekday (ordinal : ℤ) : ℤ := (ordinal + 6) % 7

/-- CPython `_isoweek1monday(year)`: ordinal of the Monday starting ISO week 1. -/
def isoweek1monday (y : ℤ) : ℤ :=
  let firstday := ymd2ord y 1 1
  let firstweekday := (firstday + 6) % 7
  let week1monday := firstday - firstweekday
  if 3 < firstweekday then week1monday + 7 else week1monday

/-- CPython `date.isocalendar()` restricted to the (ISO year, ISO week)
components used by the aggregation. -/
def isocalendar (y m d : ℤ) : ℤ × ℤ :=
  let today := ymd2ord y m d
  let week := (today - isoweek1monday y) / 7
  if week < 0 then (y - 1, (today - isoweek1monday (y - 1)) / 7 + 1)
  else if 52 ≤ week ∧ isoweek1monday (y + 1) ≤ today then (y + 1, 1)
  else (y, week + 1)

/-- Ordinal of `date.max` = 9999-12-31 (CPython `_MAXORDINAL`). -/
def MAXORDINAL : ℤ := 3652059

/-- CPython `date.__add__` / `date.__sub__` with a day-count timedelta: the
resulting ordinal must stay inside `[1, _MAXORDINAL]`, otherwise the operation
raises OverflowError (`none`). -/
def date_add_days (ordinal days : ℤ) : Option ℤ :=
  if 0 < ordinal + days ∧ ordinal + days ≤ MAXORDINAL then some (ordinal + days)
  else none

/-- Transcription of `get_iso_week_bounds(iso_year, iso_week)` on ordinals:
`jan_4 = date(iso_year, 1, 4)` (ValueError outside years 1..9999),
`week_1_monday = jan_4 - timedelta(days=jan_4.weekday())`,
`target_monday = week_1_monday + timedelta(weeks=iso_week - 1)`,
`target_sunday = target_monday + timedelta(days=6)`, each date operation
range-checked as CPython does; `none` models the raised exception. -/
def get_iso_week_bounds (iso_year iso_week : ℤ) : Option (ℤ × ℤ) :=
  if 1 ≤ iso_year ∧ iso_year ≤ 9999 then
    (date_add_days (ymd2ord iso_year 1 4)
        (-(weekday (ymd2ord iso_year 1 4)))).bind fun week_1_monday =>
      (date_add_days week_1_monday (7 * (iso_week - 1))).bind fun target_monday =>
        (date_add_days target_monday 6).map fun target_sunday =>
          (target_monday, target_sunday)
  else none

/-- Valid calendar dates accepted by CPython `datetime.date`. -/
def validDate (y m d : ℤ) : Prop :=
  1 ≤ y ∧ y ≤ 9999 ∧ 1 ≤ m ∧ m ≤ 12 ∧ 1 ≤ d ∧ d ≤ days_in_month y m

/-! ### The published statistics store (compute_aggregates_by_state_specialty) -/

/-- One row of the GROUP BY query result: the cohort key, the distinct
contributor count and the SQL AVG aggregates (NULL modelled as `none`). -/
structure GroupRow where
  country_code : String
  state_code : String
  specialty : String
  role_level : String
  n_users : ℕ
  avg_planned : Option ℚ
  avg_actual : Option ℚ
deriving DecidableEq

/-- One row of the `stats_by_state_specialty` table. -/
structure StatRow where
  country_code : String
  state_code : String
  specialty : String
  role_level : String
  period_start : ℤ
  period_end : ℤ
  n_users : ℕ
  avg_planned_hours_noised : ℚ
  avg_actual_hours_noised : ℚ
  avg_overtime_hours_noised : ℚ
  k_min_threshold : ℕ
  noise_epsilon : ℚ
  computed_at : ℕ
deriving DecidableEq

/-- `Decimal(str(round(x, 2)))` and `float(round(x, 2))`: rounding to two
decimal places. -/
def roundTo2 (q : ℚ) : ℚ := (round (q * 100) : ℚ) / 100

/-- The natural-key filter of the idempotency lookup (aggregation.py,
lines 156-166): country, state, specialty, role level and period start. -/
def natKeyMatches (g : GroupRow) (period_start : ℤ) (r : StatRow) : Bool :=
  r.country_code == g.country_code && r.state_code == g.state_code &&
    r.specialty == g.specialty && r.role_level == g.role_level &&
    r.period_start == period_start

/-- SQLAlchemy `.one_or_none()`: `some none` when no row matches, `some (some r)`
for a unique match, `none` (MultipleResultsFound) otherwise. -/
def one_or_none (p : StatRow → Bool) (store : List StatRow) : Option (Option StatRow) :=
  match store.filter p with
  | [] => some none
  | [r] => some (some r)
  | _ => none

/-- The update branch: overwrite count, noised fields, threshold, epsilon and
timestamp of the existing row in place (period fields and key are untouched). -/
def updateStatRow (r : StatRow) (g : GroupRow) (p a o : ℚ) (t : ℕ) : StatRow :=
  { r with
    n_users := g.n_users
    avg_planned_hours_noised := roundTo2 p
    avg_actual_hours_noised := roundTo2 a
    avg_overtime_hours_noised := roundTo2 o
    k_min_threshold := K_MIN
    noise_epsilon := EPSILON
    computed_at := t }

/-- The insert branch: a fresh `StatsByStateSpecialty` record (`computed_at`
is filled by the database; we record the run timestamp). -/
def newStatRow (g : GroupRow) (period_start period_end : ℤ) (p a o : ℚ) (t : ℕ) : StatRow :=
  { country_code := g.country_code
    state_code := g.state_code
    specialty := g.specialty
    role_level := g.role_level
    period_start := period_start
    period_end := period_end
    n_users := g.n_users
    avg_planned_hours_noised := roundTo2 p
    avg_actual_hours_noised := roundTo2 a
    avg_overtime_hours_noised := roundTo2 o
    k_min_threshold := K_MIN
    noise_epsilon := EPSILON
    computed_at := t }

/-- The idempotency lookup followed by the update or insert branch
(aggregation.py, lines 156-197), for already-computed noised values p, a, o:
look up the unique existing row by natural key; overwrite it in place when
found, append one fresh row otherwise; `none` when `.one_or_none()` raises. -/
def upsert (g : GroupRow) (period_start period_end : ℤ) (p a o : ℚ) (t : ℕ)
    (store : List StatRow) : Option (List StatRow) :=
  match one_or_none (natKeyMatches g period_start) store with
  | none => none
  | some (some _) =>
      some (store.map fun r =>
        if natKeyMatches g period_start r then updateStatRow r g p a o t else r)
  | some none =>
      some (store ++ [newStatRow g period_start period_end p a o t])

/-- The body of the per-group loop of `compute_aggregates_by_state_specialty`:
k-anonymity filter, averages (`float(x) if x else 0.0` is `Option.getD 0`),
noising, idempotency lookup, then update or insert. `u` is the triple of
uniform draws consumed by the three `laplace_noise` calls. -/
def compute_aggregates_step (period_start period_end : ℤ) (t : ℕ)
    (store : List StatRow) (g : GroupRow) (u : ℚ × ℚ × ℚ) : Option (List StatRow) :=
  if g.n_users < K_MIN then some store
  else
    let avg_planned := g.avg_planned.getD 0
    let avg_actual := g.avg_actual.getD 0
    let avg_overtime := avg_actual - avg_planned
    let sens := sensitivity g.n_users
    let p := avg_planned_noised avg_planned (laplace_noise EPSILON sens u.1)
    let a := avg_actual_noised avg_actual (laplace_noise EPSILON sens u.2.1)
    let o := avg_overtime_noised avg_overtime (laplace_noise EPSILON sens u.2.2)
    upsert g period_start period_end p a o t store

/-- The full loop of `compute_aggregates_by_state_specialty` over the query
result, threading the published store. -/
def compute_aggregates_by_state_specialty (period_start period_end : ℤ) (t : ℕ)
    (groups : List (GroupRow × ℚ × ℚ × ℚ)) (store : List StatRow) :
    Option (List StatRow) :=
  match groups with
  | [] => some store
  | (g, u) :: rest =>
      match compute_aggregates_step period_start period_end t store g u with
      | none => none
      | some store' =>
          compute_aggregates_by_state_specialty period_start period_end t rest store'

/-- Two published rows agree on the natural key. -/
def sameKey (r s : StatRow) : Prop :=
  r.country_code = s.country_code ∧ r.state_code = s.state_code ∧
    r.specialty = s.specialty ∧ r.role_level = s.role_level ∧
    r.period_start = s.period_start

/-- Uniqueness invariant of the published store: at most one row per
(cohort key, period start). -/
def KeyUnique (store : List StatRow) : Prop :=
  store.Pairwise fun r s => ¬ sameKey r s

/-! ### The deprecated analytics path (routers/analytics.py) -/

def SUPPRESSION_THRESHOLD : ℕ := 5

def BOOTSTRAP_ITERATIONS : ℕ := 200

def NOISE_SCALE : ℚ := 1 / 20

/-- Mean of a list, `sum(resample) / len(resample)`. -/
def listMean (l : List ℚ) : ℚ := l.sum / l.length

/-- Python `int()`: truncation toward zero. -/
def int_trunc (q : ℚ) : ℤ := if 0 ≤ q then ⌊q⌋ else -⌊-q⌋

/-- The R resample means of `_bootstrap_ci`: `pick i j` is the oracle for the
j-th `random.choice(samples)` of iteration i (reduced mod `len(samples)` so
that every oracle describes a valid choice). -/
def resample_means (samples : List ℚ) (iterations : ℕ) (pick : ℕ → ℕ → ℕ) : List ℚ :=
  (List.range iterations).map fun i =>
    listMean ((List.range samples.length).map fun j =>
      samples.getD (pick i j % samples.length) 0)

/-- Transcription of `_bootstrap_ci(samples, iterations, alpha)`.
`list.sort()` is modelled by insertion sort (same sorted result).
`lower_index = max(int((alpha / 2) * iterations) - 1, 0)` and
`upper_index = min(int((1 - alpha / 2) * iterations), iterations - 1)`. -/
def bootstrap_ci (samples : List ℚ) (iterations : ℕ) (alpha : ℚ)
    (pick : ℕ → ℕ → ℕ) : Option ℚ × Option ℚ :=
  match samples with
  | [] => (none, none)
  | [value] => (some value, some value)
  | _ =>
    let sorted := (resample_means samples iterations pick).insertionSort (· ≤ ·)
    let lower_index := max (int_trunc (alpha / 2 * iterations) - 1) 0
    let upper_index := min (int_trunc ((1 - alpha / 2) * iterations)) ((iterations : ℤ) - 1)
    (some (sorted.getD lower_index.toNat 0), some (sorted.getD upper_index.toNat 0))

/-- The bound selection exactly as claim C4 words it: the sorted means at
index `floor(alpha/2 * R)` (minimum 0) and at index `ceil((1 - alpha/2) * R)`
(capped at R - 1). Stated separately so that it can be compared with the
code-derived `bootstrap_ci`. -/
def bootstrap_ci_claimed (samples : List ℚ) (iterations : ℕ) (alpha : ℚ)
    (pick : ℕ → ℕ → ℕ) : Option ℚ × Option ℚ :=
  match samples with
  | [] => (none, none)
  | [value] => (some value, some value)
  | _ =>
    let sorted := (resample_means samples iterations pick).insertionSort (· ≤ ·)
    let lower_index := max ⌊alpha / 2 * (iterations : ℚ)⌋ 0
    let upper_index := min ⌈(1 - alpha / 2) * (iterations : ℚ)⌉ ((iterations : ℤ) - 1)
    (some (sorted.getD lower_index.toNat 0), some (sorted.getD upper_index.toNat 0))

/-- `_apply_dp(value)`: add Laplace noise to a non-null value; the realised
noise draw (`_laplace_noise(NOISE_SCALE)`, a log-transformed uniform) is the
explicit `noise` argument. -/
def apply_dp (value : Option ℚ) (noise : ℚ) : Option ℚ := value.map (· + noise)

/-- `_safe_float`: round a non-null value to two decimals. -/
def safe_float : Option ℚ → Option ℚ := Option.map roundTo2

/-- The reorder step of `_compute_metrics`: swap the two bounds when both are
non-null and the lower exceeds the upper. -/
def swapIfInverted : Option ℚ × Option ℚ → Option ℚ × Option ℚ
  | (some lo, some hi) => if hi < lo then (some hi, some lo) else (some lo, some hi)
  | p => p

/-- The metrics dictionary returned by `_compute_metrics`. -/
structure Metrics where
  avg_actual : Option ℚ
  avg_overtime : Option ℚ
  ci_actual_low : Option ℚ
  ci_actual_high : Option ℚ
  ci_overtime_low : Option ℚ
  ci_overtime_high : Option ℚ
deriving DecidableEq

/-- Transcription of `_compute_metrics`: `pickA`/`pickO` are the resampling
oracles of the two `_bootstrap_ci` calls, `nAL nAH nOL nOH` the four realised
`_apply_dp` noise draws. -/
def compute_metrics (actual_samples overtime_samples : List ℚ) (count : ℕ)
    (suppressed : Bool) (pickA pickO : ℕ → ℕ → ℕ) (nAL nAH nOL nOH : ℚ) : Metrics :=
  if suppressed || count == 0 then
    { avg_actual := none, avg_overtime := none
      ci_actual_low := none, ci_actual_high := none
      ci_overtime_low := none, ci_overtime_high := none }
  else
    let avg_actual := roundTo2 (actual_samples.sum / count)
    let avg_overtime := roundTo2 (overtime_samples.sum / count)
    let ciA := bootstrap_ci actual_samples BOOTSTRAP_ITERATIONS (1 / 20) pickA
    let ciO := bootstrap_ci overtime_samples BOOTSTRAP_ITERATIONS (1 / 20) pickO
    let ciA2 := swapIfInverted (apply_dp ciA.1 nAL, apply_dp ciA.2 nAH)
    let ciO2 := swapIfInverted (apply_dp ciO.1 nOL, apply_dp ciO.2 nOH)
    { avg_actual := some avg_actual
      avg_overtime := some avg_overtime
      ci_actual_low := safe_float ciA2.1
      ci_actual_high := safe_float ciA2.2
      ci_overtime_low := safe_float ciO2.1
      ci_overtime_high := safe_float ciO2.2 }

/-- Randomness consumed by one group of `_fetch_hospital_monthly`. -/
structure AnalyticsRand where
  pickA : ℕ → ℕ → ℕ
  pickO : ℕ → ℕ → ℕ
  nAL : ℚ
  nAH : ℚ
  nOL : ℚ
  nOH : ℚ

/-- One row of the monthly GROUP BY query in `_fetch_hospital_monthly`
(SQL aggregates that can be NULL are `Option`). -/
structure ReportMonthRow where
  hospital_domain : String
  staff_group : String
  month_start : ℤ
  report_count : ℕ
  total_actual_hours : Option ℚ
  total_overtime_hours : Option ℚ
  actual_samples : Option (List ℚ)
  overtime_samples : Option (List ℚ)

/-- The response schema `HospitalMonthlySummary`. -/
structure HospitalMonthlySummary where
  hospital_domain : String
  staff_group : String
  month_start : ℤ
  report_count : ℕ
  average_actual_hours : Option ℚ
  average_overtime_hours : Option ℚ
  total_actual_hours : Option ℚ
  total_overtime_hours : Option ℚ
  ci_actual_low : Option ℚ
  ci_actual_high : Option ℚ
  ci_overtime_low : Option ℚ
  ci_overtime_high : Option ℚ
  suppressed : Bool
deriving DecidableEq

/-- `_to_float_list`: NULL array and empty array both become `[]`. -/
def to_float_list (values : Option (List ℚ)) : List ℚ := values.getD []

/-- The loop body of `_fetch_hospital_monthly` for one query row. -/
def mkHospitalMonthlySummary (row : ReportMonthRow) (rand : AnalyticsRand) : HospitalMonthlySummary :=
  let suppressed : Bool := decide (row.report_count < SUPPRESSION_THRESHOLD)
  let total_actual := row.total_actual_hours.getD 0
  let total_overtime := row.total_overtime_hours.getD 0
  let actual_samples := to_float_list row.actual_samples
  let overtime_samples := to_float_list row.overtime_samples
  let metrics := compute_metrics actual_samples overtime_samples row.report_count
    suppressed rand.pickA rand.pickO rand.nAL rand.nAH rand.nOL rand.nOH
  { hospital_domain := row.hospital_domain
    staff_group := row.staff_group
    month_start := row.month_start
    report_count := row.report_count
    average_actual_hours := if suppressed then none else metrics.avg_actual
    average_overtime_hours := if suppressed then none else metrics.avg_overtime
    total_actual_hours := if suppressed then none else some (roundTo2 total_actual)
    total_overtime_hours := if suppressed then none else some (roundTo2 total_overtime)
    ci_actual_low := if suppressed then none else metrics.ci_actual_low
    ci_actual_high := if suppressed then none else metrics.ci_actual_high
    ci_overtime_low := if suppressed then none else metrics.ci_overtime_low
    ci_overtime_high := if suppressed then none else metrics.ci_overtime_high
    suppressed := suppressed }

/-- `_fetch_hospital_monthly` over the query result, one randomness bundle
per row. -/
def fetch_hospital_monthly (rows : List (ReportMonthRow × AnalyticsRand)) :
    List HospitalMonthlySummary :=
  rows.map fun rr => mkHospitalMonthlySummary rr.1 rr.2

/-! ### Helper lemmas -/

lemma roundTo2_nonneg {q : ℚ} (h : 0 ≤ q) : 0 ≤ roundTo2 q := by
  unfold roundTo2
  have h0 : (0 : ℤ) ≤ round (q * 100) := by
    rw [round_eq]
    rw [Int.le_floor]
    push_cast
    linarith
  positivity

lemma roundTo2_mono {a b : ℚ} (h : a ≤ b) : roundTo2 a ≤ roundTo2 b := by
  unfold roundTo2
  have h0 : round (a * 100) ≤ round (b * 100) := by
    rw [round_eq, round_eq]
    exact Int.floor_mono (by linarith)
  have h1 : ((round (a * 100) : ℚ)) ≤ (round (b * 100) : ℚ) := by exact_mod_cast h0
  linarith

lemma int_trunc_of_nonneg {q : ℚ} (h : 0 ≤ q) : int_trunc q = ⌊q⌋ := by
  simp [int_trunc, h]

/-! ### Claim theorems -/

/-- C5: the per-cohort sensitivity computed by
`compute_aggregates_by_state_specialty` equals the fixed ceiling
C = 168 hours per week divided by the contributor count, and is monotonically
non-increasing in that count: `sensitivity n ≥ sensitivity (2 n)`. -/
theorem sensitivity_formula_and_monotone (n : ℕ) (hn : 0 < n) :
    sensitivity n = 168 / (n : ℚ) ∧ sensitivity (2 * n) ≤ sensitivity n := by
  constructor
  · unfold sensitivity max_hours_per_week
    norm_num
  · unfold sensitivity max_hours_per_week
    have hpos : (0 : ℚ) < (n : ℚ) := by exact_mod_cast hn
    have h2 : ((2 * n : ℕ) : ℚ) = 2 * (n : ℚ) := by push_cast; ring
    rw [h2]
    exact div_le_div_of_nonneg_left (by norm_num) hpos (by linarith)

/-- C5 witness: instantiation at a cohort of 3 contributors. -/
theorem sensitivity_formula_and_monotone_witness :
    sensitivity 3 = 168 / (3 : ℚ) ∧ sensitivity (2 * 3) ≤ sensitivity 3 :=
  sensitivity_formula_and_monotone 3 (by decide)

/-- C3 counterexample: at epsilon = 1, sensitivity = 1 and the admissible
uniform draw u = 0, the primary-path noise equals -(s/epsilon) exactly, so
`abs noise < s/epsilon` fails: the claimed strict bound is wrong on the
boundary draw. -/
theorem laplace_noise_strict_bound_counterexample :
    (0 : ℚ) < 1 ∧ (0 : ℚ) ≤ 1 ∧ -(1 / 2 : ℚ) < 0 ∧ (0 : ℚ) < 1 / 2 ∧
      laplace_noise 1 1 0 = -1 ∧ ¬ |laplace_noise 1 1 0| < 1 / 1 := by
  refine ⟨by norm_num, by norm_num, by norm_num, by norm_num, ?_, ?_⟩ <;>
    with_unfolding_all decide

/-- C3 (amended): for epsilon > 0, sensitivity ≥ 0 and every uniform draw u
in (-1/2, 1/2), the primary-path noise satisfies `abs noise ≤ s/epsilon`, with
strict inequality whenever u ≠ 0 and s > 0; the value -(s/epsilon) is attained
exactly at u = 0, so the noise is bounded (lies in [-scale, scale]) though not
strictly inside the open interval. -/
theorem laplace_noise_bounded (ε s u : ℚ) (hε : 0 < ε) (hs : 0 ≤ s)
    (hu1 : -(1 / 2) < u) (hu2 : u < 1 / 2) :
    |laplace_noise ε s u| ≤ s / ε ∧
      (u ≠ 0 → 0 < s → |laplace_noise ε s u| < s / ε) := by
  have hscale : 0 ≤ s / ε := div_nonneg hs hε.le
  simp only [laplace_noise]
  split
  · rename_i hneg
    have hfac0 : (0 : ℚ) < 1 + u * 2 := by linarith
    have hfac1 : 1 + u * 2 < 1 := by linarith
    have hvnn : 0 ≤ s / ε * (1 + u * 2) := mul_nonneg hscale hfac0.le
    rw [abs_of_nonneg hvnn]
    constructor
    · nlinarith
    · intro _ hs0
      have hspos : 0 < s / ε := div_pos hs0 hε
      nlinarith
  · rename_i hge
    push_neg at hge
    have hfac0 : (0 : ℚ) < 1 - u * 2 := by linarith
    have hfac1 : 1 - u * 2 ≤ 1 := by linarith
    have hvnp : -(s / ε) * (1 - u * 2) ≤ 0 := by nlinarith
    rw [abs_of_nonpos hvnp]
    constructor
    · nlinarith
    · intro hu0 hs0
      have hupos : 0 < u := lt_of_le_of_ne hge (Ne.symm hu0)
      have hspos : 0 < s / ε := div_pos hs0 hε
      nlinarith

/-- C3 witness: the amended bound applied at epsilon = 1, s = 1, u = 1/4. -/
theorem laplace_noise_bounded_witness :
    |laplace_noise 1 1 (1 / 4)| ≤ 1 / 1 ∧
      ((1 / 4 : ℚ) ≠ 0 → (0 : ℚ) < 1 → |laplace_noise 1 1 (1 / 4)| < 1 / 1) :=
  laplace_noise_bounded 1 1 (1 / 4) (by norm_num) (by norm_num) (by norm_num)
    (by norm_num)

/-- C9: `_bootstrap_ci` returns (null, null) on an empty sample list and
(v, v) on a one-element sample list, for every iteration count, significance
level and resampling oracle (so no resample draw can influence the result),
and totally (no exception). -/
theorem bootstrap_ci_degenerate_cases :
    ∀ (iterations : ℕ) (alpha : ℚ) (pick : ℕ → ℕ → ℕ) (v : ℚ),
      bootstrap_ci [] iterations alpha pick = (none, none) ∧
      bootstrap_ci [v] iterations alpha pick = (some v, some v) := by
  intro iterations alpha pick v
  constructor <;> rfl

/-! ### Calendar lemmas for C6 -/

lemma isLeapYear_iff (y : ℤ) :
    isLeapYear y = true ↔ (y % 4 = 0 ∧ (¬ y % 100 = 0 ∨ y % 400 = 0)) := by
  simp [isLeapYear, Bool.and_eq_true, Bool.or_eq_true, beq_iff_eq, bne_iff_ne]

lemma days_before_year_succ (y : ℤ) :
    days_before_year (y + 1) =
      days_before_year y + (if isLeapYear y then 366 else 365) := by
  by_cases h : isLeapYear y = true
  · simp only [h, if_true]
    rw [isLeapYear_iff] at h
    unfold days_before_year
    omega
  · simp only [h, if_false]
    rw [isLeapYear_iff] at h
    push_neg at h
    unfold days_before_year
    show (y + 1 - 1) * 365 + (y + 1 - 1) / 4 - (y + 1 - 1) / 100 + (y + 1 - 1) / 400 =
      (y - 1) * 365 + (y - 1) / 4 - (y - 1) / 100 + (y - 1) / 400 + 365
    have hdvd1 : y % 100 = 0 → y % 4 = 0 := by omega
    have hdvd2 : y % 400 = 0 → y % 100 = 0 := by omega
    omega

lemma days_before_year_succ_bounds (y : ℤ) :
    365 ≤ days_before_year (y + 1) - days_before_year y ∧
      days_before_year (y + 1) - days_before_year y ≤ 366 := by
  rw [days_before_year_succ]
  split <;> omega

lemma ymd2ord_jan1 (y : ℤ) : ymd2ord y 1 1 = days_before_year y + 1 := by
  simp [ymd2ord, days_before_month, DAYS_BEFORE_MONTH]

lemma ymd2ord_jan4 (y : ℤ) : ymd2ord y 1 4 = days_before_year y + 4 := by
  simp [ymd2ord, days_before_month, DAYS_BEFORE_MONTH]

lemma ymd2ord_bounds (y m d : ℤ) (hv : validDate y m d) :
    days_before_year y + 1 ≤ ymd2ord y m d ∧
      ymd2ord y m d ≤ days_before_year (y + 1) := by
  obtain ⟨-, -, hm1, hm2, hd1, hd2⟩ := hv
  rw [days_before_year_succ]
  unfold ymd2ord days_before_month
  unfold days_in_month at hd2
  cases hL : isLeapYear y with
  | false =>
      simp only [hL, and_false, if_false] at *
      unfold DAYS_BEFORE_MONTH DAYS_IN_MONTH at *
      interval_cases m <;> simp_all <;> omega
  | true =>
      simp only [hL, and_true, if_true] at *
      unfold DAYS_BEFORE_MONTH DAYS_IN_MONTH at *
      interval_cases m <;> simp_all <;> omega

lemma isoweek1monday_mod7 (y : ℤ) : isoweek1monday y % 7 = 1 := by
  simp only [isoweek1monday]
  split <;> omega

lemma isoweek1monday_near (y : ℤ) :
    days_before_year y - 2 ≤ isoweek1monday y ∧
      isoweek1monday y ≤ days_before_year y + 4 := by
  simp only [isoweek1monday, ymd2ord_jan1]
  split <;> omega

lemma week_1_monday_eq (y : ℤ) :
    ymd2ord y 1 4 - weekday (ymd2ord y 1 4) = isoweek1monday y := by
  rw [ymd2ord_jan4]
  simp only [isoweek1monday, weekday, ymd2ord_jan1]
  split <;> omega

lemma days_before_year_nonneg {y : ℤ} (h : 1 ≤ y) : 0 ≤ days_before_year y := by
  unfold days_before_year
  omega

lemma days_before_year_ge_365 {y : ℤ} (h : 2 ≤ y) : 365 ≤ days_before_year y := by
  unfold days_before_year
  omega

lemma days_before_year_le {y : ℤ} (h : y ≤ 9999) : days_before_year y ≤ 3651694 := by
  unfold days_before_year
  omega

lemma isoweek1monday_pos {y : ℤ} (h : 1 ≤ y) : 1 ≤ isoweek1monday y := by
  rcases (by omega : y = 1 ∨ 2 ≤ y) with rfl | h2
  · decide
  · have hnear := isoweek1monday_near y
    have h365 := days_before_year_ge_365 h2
    omega

lemma isoweek1monday_le {y : ℤ} (h : y ≤ 9999) : isoweek1monday y ≤ 3651698 := by
  have hnear := isoweek1monday_near y
  have hle := days_before_year_le h
  omega

lemma date_add_days_eq_some {ordinal days : ℤ} (h1 : 0 < ordinal + days)
    (h2 : ordinal + days ≤ MAXORDINAL) :
    date_add_days ordinal days = some (ordinal + days) := by
  unfold date_add_days
  rw [if_pos ⟨h1, h2⟩]

lemma get_iso_week_bounds_some {iso_year iso_week : ℤ}
    (h1 : 1 ≤ iso_year) (h2 : iso_year ≤ 9999)
    (hmon : 0 < isoweek1monday iso_year + 7 * (iso_week - 1))
    (hsun : isoweek1monday iso_year + 7 * (iso_week - 1) + 6 ≤ MAXORDINAL) :
    get_iso_week_bounds iso_year iso_week =
      some (isoweek1monday iso_year + 7 * (iso_week - 1),
            isoweek1monday iso_year + 7 * (iso_week - 1) + 6) := by
  have hw1m := week_1_monday_eq iso_year
  have hpos := isoweek1monday_pos h1
  have hle := isoweek1monday_le h2
  have hM : MAXORDINAL = 3652059 := rfl
  have hstep1 : date_add_days (ymd2ord iso_year 1 4)
      (-(weekday (ymd2ord iso_year 1 4))) = some (isoweek1monday iso_year) := by
    have he : ymd2ord iso_year 1 4 + -(weekday (ymd2ord iso_year 1 4)) =
        isoweek1monday iso_year := by omega
    unfold date_add_days
    rw [he, if_pos ⟨by omega, by omega⟩]
  have hstep2 : date_add_days (isoweek1monday iso_year) (7 * (iso_week - 1)) =
      some (isoweek1monday iso_year + 7 * (iso_week - 1)) :=
    date_add_days_eq_some (by omega) (by omega)
  have hstep3 : date_add_days (isoweek1monday iso_year + 7 * (iso_week - 1)) 6 =
      some (isoweek1monday iso_year + 7 * (iso_week - 1) + 6) :=
    date_add_days_eq_some (by omega) (by omega)
  unfold get_iso_week_bounds
  rw [if_pos ⟨h1, h2⟩, hstep1, Option.some_bind, hstep2, Option.some_bind, hstep3,
    Option.map_some']

lemma target_in_week (iso_year iso_week T : ℤ)
    (h1 : 1 ≤ iso_year) (h2 : iso_year ≤ 9999)
    (hmon : 0 < isoweek1monday iso_year + 7 * (iso_week - 1))
    (hlo : isoweek1monday iso_year + 7 * (iso_week - 1) ≤ T)
    (hhi : T ≤ isoweek1monday iso_year + 7 * (iso_week - 1) + 6)
    (hT54 : T ≤ 3652054) :
    ∃ b : ℤ × ℤ, get_iso_week_bounds iso_year iso_week = some b ∧
      b.2 = b.1 + 6 ∧ weekday b.1 = 0 ∧ weekday b.2 = 6 ∧ b.1 ≤ T ∧ T ≤ b.2 := by
  have hmod := isoweek1monday_mod7 iso_year
  have hM : MAXORDINAL = 3652059 := rfl
  have hsun : isoweek1monday iso_year + 7 * (iso_week - 1) + 6 ≤ MAXORDINAL := by
    omega
  refine ⟨(isoweek1monday iso_year + 7 * (iso_week - 1),
      isoweek1monday iso_year + 7 * (iso_week - 1) + 6),
    get_iso_week_bounds_some h1 h2 hmon hsun, rfl, ?_, ?_, hlo, hhi⟩
  · show (isoweek1monday iso_year + 7 * (iso_week - 1) + 6) % 7 = 0
    omega
  · show (isoweek1monday iso_year + 7 * (iso_week - 1) + 6 + 6) % 7 = 6
    omega

/-- C6 counterexample: 9999-12-31 is a valid calendar date whose ISO week is
9999-W52, but `get_iso_week_bounds(9999, 52)` raises OverflowError (modelled
as `none`) computing the window's Sunday, which would be 10000-01-02, past
`date.max` — so the claimed error-free window with start ≤ d ≤ end does not
exist for every valid date. -/
theorem iso_week_bounds_overflow_counterexample :
    validDate 9999 12 31 ∧ isocalendar 9999 12 31 = (9999, 52) ∧
      get_iso_week_bounds 9999 52 = none := by
  refine ⟨?_, ?_, ?_⟩
  · unfold validDate
    decide
  · decide
  · decide

/-- C6 (amended): for every valid calendar date before 9999-12-27 — that is,
every valid date except the five dates of the final representable ISO week
9999-W52, where the code raises OverflowError — feeding the date's
`isocalendar()` ISO year and week into `get_iso_week_bounds` succeeds and
returns a 7-day (start, start + 6) window whose start is a Monday and whose
end is a Sunday, with start ≤ date ≤ end. -/
theorem iso_week_bounds_window (y m d : ℤ) (hv : validDate y m d)
    (hlast : ymd2ord y m d < ymd2ord 9999 12 27) :
    ∃ b : ℤ × ℤ,
      get_iso_week_bounds (isocalendar y m d).1 (isocalendar y m d).2 = some b ∧
        b.2 = b.1 + 6 ∧ weekday b.1 = 0 ∧ weekday b.2 = 6 ∧
        b.1 ≤ ymd2ord y m d ∧ ymd2ord y m d ≤ b.2 := by
  have hy1 : 1 ≤ y := hv.1
  have hy2 : y ≤ 9999 := hv.2.1
  have hT := ymd2ord_bounds y m d hv
  have hprev := days_before_year_succ_bounds (y - 1)
  have hnext := days_before_year_succ_bounds y
  rw [show y - 1 + 1 = y by ring] at hprev
  have hnearP := isoweek1monday_near (y - 1)
  have hnearY := isoweek1monday_near y
  have hnearN := isoweek1monday_near (y + 1)
  have h27 : ymd2ord 9999 12 27 = 3652055 := by decide
  have hT54 : ymd2ord y m d ≤ 3652054 := by omega
  simp only [isocalendar]
  split
  · rename_i hweek
    rcases (by omega : y = 1 ∨ 2 ≤ y) with rfl | hy3
    · exfalso
      have hw11 : isoweek1monday 1 = 1 := by decide
      have hdby1 : days_before_year 1 = 0 := by decide
      omega
    · have hposP := isoweek1monday_pos (by omega : (1 : ℤ) ≤ y - 1)
      exact target_in_week (y - 1)
        ((ymd2ord y m d - isoweek1monday (y - 1)) / 7 + 1) (ymd2ord y m d)
        (by omega) (by omega) (by omega) (by omega) (by omega) hT54
  · split
    · rename_i hcond
      obtain ⟨h52, hle2⟩ := hcond
      rcases (by omega : y = 9999 ∨ y ≤ 9998) with rfl | hy9
      · exfalso
        have hw10k : isoweek1monday (9999 + 1) = 3652062 := by decide
        have hdby10k : days_before_year (9999 + 1) = 3652059 := by decide
        omega
      · have hposN := isoweek1monday_pos (by omega : (1 : ℤ) ≤ y + 1)
        exact target_in_week (y + 1) 1 (ymd2ord y m d)
          (by omega) (by omega) (by omega) (by omega) (by omega) hT54
    · rename_i hweek hcond
      push_neg at hweek
      have hposY := isoweek1monday_pos hy1
      exact target_in_week y
        ((ymd2ord y m d - isoweek1monday y) / 7 + 1) (ymd2ord y m d)
        (by omega) (by omega) (by omega) (by omega) (by omega) hT54

/-- C6 witness: the window computed for 2024-10-12 (a Saturday in ISO week
2024-W41), well before the overflow boundary. -/
theorem iso_week_bounds_window_witness :
    ∃ b : ℤ × ℤ,
      get_iso_week_bounds (isocalendar 2024 10 12).1 (isocalendar 2024 10 12).2 =
          some b ∧
        b.2 = b.1 + 6 ∧ weekday b.1 = 0 ∧ weekday b.2 = 6 ∧
        b.1 ≤ ymd2ord 2024 10 12 ∧ ymd2ord 2024 10 12 ≤ b.2 :=
  iso_week_bounds_window 2024 10 12 (by unfold validDate; decide) (by decide)

/-! ### Store lemmas for C1, C2 and C7 -/

lemma sameKey_refl (r : StatRow) : sameKey r r := ⟨rfl, rfl, rfl, rfl, rfl⟩

lemma sameKey_symm {r s : StatRow} (h : sameKey r s) : sameKey s r := by
  obtain ⟨h1, h2, h3, h4, h5⟩ := h
  exact ⟨h1.symm, h2.symm, h3.symm, h4.symm, h5.symm⟩

lemma sameKey_trans {r s w : StatRow} (h : sameKey r s) (h' : sameKey s w) :
    sameKey r w := by
  obtain ⟨h1, h2, h3, h4, h5⟩ := h
  obtain ⟨k1, k2, k3, k4, k5⟩ := h'
  exact ⟨h1.trans k1, h2.trans k2, h3.trans k3, h4.trans k4, h5.trans k5⟩

lemma natKeyMatches_imp_sameKey {g : GroupRow} {ps : ℤ} {r s : StatRow}
    (hr : natKeyMatches g ps r = true) (hs : natKeyMatches g ps s = true) :
    sameKey r s := by
  simp only [natKeyMatches, Bool.and_eq_true, beq_iff_eq] at hr hs
  obtain ⟨⟨⟨⟨h1, h2⟩, h3⟩, h4⟩, h5⟩ := hr
  obtain ⟨⟨⟨⟨k1, k2⟩, k3⟩, k4⟩, k5⟩ := hs
  exact ⟨h1.trans k1.symm, h2.trans k2.symm, h3.trans k3.symm, h4.trans k4.symm,
    h5.trans k5.symm⟩

lemma sameKey_natKeyMatches {g : GroupRow} {ps : ℤ} {r s : StatRow} (h : sameKey r s) :
    natKeyMatches g ps r = natKeyMatches g ps s := by
  obtain ⟨h1, h2, h3, h4, h5⟩ := h
  simp [natKeyMatches, h1, h2, h3, h4, h5]

lemma updateStatRow_sameKey (r : StatRow) (g : GroupRow) (p a o : ℚ) (t : ℕ) :
    sameKey (updateStatRow r g p a o t) r := ⟨rfl, rfl, rfl, rfl, rfl⟩

lemma newStatRow_matches (g : GroupRow) (ps pe : ℤ) (p a o : ℚ) (t : ℕ) :
    natKeyMatches g ps (newStatRow g ps pe p a o t) = true := by
  simp [natKeyMatches, newStatRow]

lemma filter_natKey_length_le_one {g : GroupRow} {ps : ℤ} {store : List StatRow}
    (h : KeyUnique store) : (store.filter (natKeyMatches g ps)).length ≤ 1 := by
  rcases hfl : store.filter (natKeyMatches g ps) with - | ⟨a, - | ⟨b, l⟩⟩
  · simp
  · simp
  · exfalso
    have hp : (store.filter (natKeyMatches g ps)).Pairwise fun r s => ¬ sameKey r s :=
      h.filter _
    rw [hfl] at hp
    have hab : ¬ sameKey a b := (List.pairwise_cons.mp hp).1 b (by simp)
    have hamem : a ∈ store.filter (natKeyMatches g ps) := by rw [hfl]; simp
    have hbmem : b ∈ store.filter (natKeyMatches g ps) := by rw [hfl]; simp
    exact hab (natKeyMatches_imp_sameKey (List.of_mem_filter hamem)
      (List.of_mem_filter hbmem))

lemma upsert_mem {g : GroupRow} {ps pe : ℤ} {p a o : ℚ} {t : ℕ}
    {store s' : List StatRow} (h : upsert g ps pe p a o t store = some s') :
    ∀ r ∈ s', r ∈ store ∨
      (r.n_users = g.n_users ∧ r.avg_planned_hours_noised = roundTo2 p ∧
        r.avg_actual_hours_noised = roundTo2 a ∧
        r.avg_overtime_hours_noised = roundTo2 o) := by
  unfold upsert one_or_none at h
  rcases hfl : store.filter (natKeyMatches g ps) with - | ⟨r0, - | ⟨r1, l⟩⟩ <;>
    rw [hfl] at h
  · -- no existing row: insert
    simp only [Option.some.injEq] at h
    subst h
    intro r hr
    rcases List.mem_append.mp hr with hmem | hmem
    · exact Or.inl hmem
    · rw [List.mem_singleton.mp hmem]
      exact Or.inr ⟨rfl, rfl, rfl, rfl⟩
  · -- unique existing row: update in place
    simp only [Option.some.injEq] at h
    subst h
    intro r hr
    obtain ⟨x, hx, rfl⟩ := List.mem_map.mp hr
    by_cases hmx : natKeyMatches g ps x = true
    · simp only [hmx, if_true]
      exact Or.inr ⟨rfl, rfl, rfl, rfl⟩
    · simp only [hmx, if_false]
      exact Or.inl hx
  · cases h

lemma upsert_spec (g : GroupRow) (ps pe : ℤ) (p a o : ℚ) (t : ℕ)
    (store : List StatRow) (hKU : KeyUnique store) :
    ∃ s', upsert g ps pe p a o t store = some s' ∧ KeyUnique s' ∧
      ((∃ r ∈ store, natKeyMatches g ps r = true) → s'.length = store.length) ∧
      ((∀ r ∈ store, natKeyMatches g ps r = false) → s'.length = store.length + 1) ∧
      (∀ r ∈ s', natKeyMatches g ps r = true →
        r.n_users = g.n_users ∧ r.k_min_threshold = K_MIN ∧
          r.noise_epsilon = EPSILON ∧ r.computed_at = t ∧
          r.avg_planned_hours_noised = roundTo2 p ∧
          r.avg_actual_hours_noised = roundTo2 a ∧
          r.avg_overtime_hours_noised = roundTo2 o) ∧
      (∀ r ∈ store, natKeyMatches g ps r = false → r ∈ s') := by
  rcases hfl : store.filter (natKeyMatches g ps) with - | ⟨r0, rest⟩
  · -- insert branch
    have hnone : ∀ r ∈ store, ¬ natKeyMatches g ps r = true :=
      List.filter_eq_nil_iff.mp hfl
    refine ⟨store ++ [newStatRow g ps pe p a o t], ?_, ?_, ?_, ?_, ?_, ?_⟩
    · simp only [upsert, one_or_none, hfl]
    · rw [KeyUnique, List.pairwise_append]
      refine ⟨hKU, by simp, ?_⟩
      intro x hx b hb hsk
      rw [List.mem_singleton.mp hb] at hsk
      have hxm : natKeyMatches g ps x = true := by
        rw [sameKey_natKeyMatches hsk, newStatRow_matches]
      exact hnone x hx hxm
    · rintro ⟨r, hr, hm⟩
      exact absurd hm (hnone r hr)
    · intro _
      simp
    · intro r hr hm
      rcases List.mem_append.mp hr with hmem | hmem
      · exact absurd hm (hnone r hmem)
      · rw [List.mem_singleton.mp hmem]
        exact ⟨rfl, rfl, rfl, rfl, rfl, rfl, rfl⟩
    · intro r hr _
      exact List.mem_append_left _ hr
  · -- update branch (unique match by KeyUnique)
    have hlen := @filter_natKey_length_le_one g ps store hKU
    rw [hfl] at hlen
    have hrest : rest = [] := by
      cases rest with
      | nil => rfl
      | cons r1 l => simp at hlen
    subst hrest
    have hr0 : natKeyMatches g ps r0 = true :=
      List.of_mem_filter (hfl ▸ List.mem_singleton_self r0)
    have hr0mem : r0 ∈ store := List.mem_of_mem_filter (hfl ▸ List.mem_singleton_self r0)
    refine ⟨store.map fun r =>
        if natKeyMatches g ps r then updateStatRow r g p a o t else r,
      ?_, ?_, ?_, ?_, ?_, ?_⟩
    · simp only [upsert, one_or_none, hfl]
    · refine List.Pairwise.map _ ?_ hKU
      intro x y hxy hsk'
      apply hxy
      have kx : sameKey (if natKeyMatches g ps x then updateStatRow x g p a o t else x) x := by
        by_cases hmx : natKeyMatches g ps x = true
        · simp only [hmx, if_true]
          exact updateStatRow_sameKey x g p a o t
        · simp only [hmx, if_false]
          exact sameKey_refl x
      have ky : sameKey (if natKeyMatches g ps y then updateStatRow y g p a o t else y) y := by
        by_cases hmy : natKeyMatches g ps y = true
        · simp only [hmy, if_true]
          exact updateStatRow_sameKey y g p a o t
        · simp only [hmy, if_false]
          exact sameKey_refl y
      exact sameKey_trans (sameKey_symm kx) (sameKey_trans hsk' ky)
    · intro _
      simp
    · intro hnone
      exact absurd hr0 (by simp [hnone r0 hr0mem])
    · intro r hr hm
      obtain ⟨x, hx, rfl⟩ := List.mem_map.mp hr
      by_cases hmx : natKeyMatches g ps x = true
      · simp only [hmx, if_true]
        exact ⟨rfl, rfl, rfl, rfl, rfl, rfl, rfl⟩
      · rw [if_neg hmx] at hm ⊢
        exact absurd hm hmx
    · intro r hr hm
      exact List.mem_map.mpr ⟨r, hr, by simp [hm]⟩

lemma step_suppressed {g : GroupRow} (hk : g.n_users < K_MIN) (ps pe : ℤ) (t : ℕ)
    (store : List StatRow) (u : ℚ × ℚ × ℚ) :
    compute_aggregates_step ps pe t store g u = some store := by
  simp [compute_aggregates_step, hk]

lemma step_accepted {g : GroupRow} (hk : ¬ g.n_users < K_MIN) (ps pe : ℤ) (t : ℕ)
    (store : List StatRow) (u : ℚ × ℚ × ℚ) :
    compute_aggregates_step ps pe t store g u =
      upsert g ps pe
        (avg_planned_noised (g.avg_planned.getD 0)
          (laplace_noise EPSILON (sensitivity g.n_users) u.1))
        (avg_actual_noised (g.avg_actual.getD 0)
          (laplace_noise EPSILON (sensitivity g.n_users) u.2.1))
        (avg_overtime_noised (g.avg_actual.getD 0 - g.avg_planned.getD 0)
          (laplace_noise EPSILON (sensitivity g.n_users) u.2.2))
        t store := by
  simp only [compute_aggregates_step, if_neg hk]

/-- C1: a cohort group whose distinct contributor count is below K_MIN = 11 is
skipped before any insert or update (the store is returned unchanged), and
consequently a store whose rows all have counts ≥ K_MIN keeps that property
across any full aggregation run: no published row with a count below K ever
exists. -/
theorem kanonymity_suppressed_not_published :
    (∀ (ps pe : ℤ) (t : ℕ) (store : List StatRow) (g : GroupRow) (u : ℚ × ℚ × ℚ),
      g.n_users < K_MIN → compute_aggregates_step ps pe t store g u = some store) ∧
    (∀ (ps pe : ℤ) (t : ℕ) (groups : List (GroupRow × ℚ × ℚ × ℚ))
      (store res : List StatRow), (∀ r ∈ store, K_MIN ≤ r.n_users) →
      compute_aggregates_by_state_specialty ps pe t groups store = some res →
      ∀ r ∈ res, K_MIN ≤ r.n_users) := by
  constructor
  · intro ps pe t store g u hk
    exact step_suppressed hk ps pe t store u
  · intro ps pe t groups
    induction groups with
    | nil =>
        intro store res hst hrun
        simp only [compute_aggregates_by_state_specialty, Option.some.injEq] at hrun
        subst hrun
        exact hst
    | cons gu rest ih =>
        intro store res hst hrun
        obtain ⟨g, u⟩ := gu
        rcases hstep : compute_aggregates_step ps pe t store g u with - | store'
        · simp [compute_aggregates_by_state_specialty, hstep] at hrun
        · simp only [compute_aggregates_by_state_specialty, hstep] at hrun
          refine ih store' res ?_ hrun
          by_cases hk : g.n_users < K_MIN
          · rw [step_suppressed hk ps pe t store u] at hstep
            rw [← Option.some.inj hstep]
            exact hst
          · rw [step_accepted hk ps pe t store u] at hstep
            intro r hr
            rcases upsert_mem hstep r hr with hmem | ⟨hn, -, -, -⟩
            · exact hst r hmem
            · rw [hn]
              omega

/-- C1 witness: a cohort of 5 contributors is skipped and writes nothing. -/
theorem kanonymity_suppressed_not_published_witness :
    compute_aggregates_step 0 0 0 []
      ⟨"DE", "BY", "anaesthesia", "resident", 5, none, none⟩ (0, 0, 0) = some [] :=
  kanonymity_suppressed_not_published.1 0 0 0 []
    ⟨"DE", "BY", "anaesthesia", "resident", 5, none, none⟩ (0, 0, 0) (by decide)

/-- C2: for an accepted cohort the step looks up the existing row by natural
key; on a hit it overwrites count, noised fields, threshold, epsilon and
timestamp in place (same store length, non-matching rows kept), otherwise it
inserts exactly one new row; the key-uniqueness invariant (at most one row per
cohort-key and period start) is preserved by every run, and every row carrying
the cohort key afterwards stores exactly the cohort's raw contributor count,
so re-running over the same data leaves the stored count identical. -/
theorem upsert_unique_row_per_key :
    (∀ (ps pe : ℤ) (t : ℕ) (store : List StatRow) (g : GroupRow) (u : ℚ × ℚ × ℚ),
      KeyUnique store → K_MIN ≤ g.n_users →
      ∃ s', compute_aggregates_step ps pe t store g u = some s' ∧ KeyUnique s' ∧
        ((∃ r ∈ store, natKeyMatches g ps r = true) → s'.length = store.length) ∧
        ((∀ r ∈ store, natKeyMatches g ps r = false) → s'.length = store.length + 1) ∧
        (∀ r ∈ s', natKeyMatches g ps r = true →
          r.n_users = g.n_users ∧ r.k_min_threshold = K_MIN ∧
            r.noise_epsilon = EPSILON ∧ r.computed_at = t) ∧
        (∀ r ∈ store, natKeyMatches g ps r = false → r ∈ s')) ∧
    (∀ (ps pe : ℤ) (t : ℕ) (groups : List (GroupRow × ℚ × ℚ × ℚ))
      (store : List StatRow), KeyUnique store →
      ∃ res, compute_aggregates_by_state_specialty ps pe t groups store = some res ∧
        KeyUnique res) := by
  constructor
  · intro ps pe t store g u hKU hge
    rw [step_accepted (not_lt.mpr hge) ps pe t store u]
    obtain ⟨s', heq, hKU', hC, hD, hE, hF⟩ :=
      upsert_spec g ps pe
        (avg_planned_noised (g.avg_planned.getD 0)
          (laplace_noise EPSILON (sensitivity g.n_users) u.1))
        (avg_actual_noised (g.avg_actual.getD 0)
          (laplace_noise EPSILON (sensitivity g.n_users) u.2.1))
        (avg_overtime_noised (g.avg_actual.getD 0 - g.avg_planned.getD 0)
          (laplace_noise EPSILON (sensitivity g.n_users) u.2.2))
        t store hKU
    refine ⟨s', heq, hKU', hC, hD, ?_, hF⟩
    intro r hr hm
    obtain ⟨a1, a2, a3, a4, -, -, -⟩ := hE r hr hm
    exact ⟨a1, a2, a3, a4⟩
  · intro ps pe t groups
    induction groups with
    | nil =>
        intro store hKU
        exact ⟨store, rfl, hKU⟩
    | cons gu rest ih =>
        intro store hKU
        obtain ⟨g, u⟩ := gu
        by_cases hk : g.n_users < K_MIN
        · obtain ⟨res, hrun, hKUres⟩ := ih store hKU
          refine ⟨res, ?_, hKUres⟩
          simp only [compute_aggregates_by_state_specialty, step_suppressed hk]
          exact hrun
        · obtain ⟨s', heq, hKU', -, -, -, -⟩ :=
            upsert_spec g ps pe
              (avg_planned_noised (g.avg_planned.getD 0)
                (laplace_noise EPSILON (sensitivity g.n_users) u.1))
              (avg_actual_noised (g.avg_actual.getD 0)
                (laplace_noise EPSILON (sensitivity g.n_users) u.2.1))
              (avg_overtime_noised (g.avg_actual.getD 0 - g.avg_planned.getD 0)
                (laplace_noise EPSILON (sensitivity g.n_users) u.2.2))
              t store hKU
          obtain ⟨res, hrun, hKUres⟩ := ih s' hKU'
          refine ⟨res, ?_, hKUres⟩
          simp only [compute_aggregates_by_state_specialty, step_accepted hk, heq]
          exact hrun

/-- C2 witness: one full run starting from the empty store terminates with a
key-unique store. -/
theorem upsert_unique_row_per_key_witness :
    ∃ res, compute_aggregates_by_state_specialty 0 0 0
        [(⟨"DE", "BY", "anaesthesia", "senior", 12, none, none⟩, 0, 0, 0)] []
        = some res ∧ KeyUnique res :=
  upsert_unique_row_per_key.2 0 0 0
    [(⟨"DE", "BY", "anaesthesia", "senior", 12, none, none⟩, 0, 0, 0)] []
    List.Pairwise.nil

/-- C7: the noised planned and actual means are clamped, `max(0, raw + noise)`,
hence non-negative; the noised overtime mean is the raw mean plus noise with no
clamping and can be negative; consequently every row the step writes (as
opposed to rows already in the store) carries non-negative noised planned and
actual averages. -/
theorem noised_clamping :
    (∀ a n : ℚ, avg_planned_noised a n = max 0 (a + n) ∧ 0 ≤ avg_planned_noised a n) ∧
    (∀ a n : ℚ, avg_actual_noised a n = max 0 (a + n) ∧ 0 ≤ avg_actual_noised a n) ∧
    (∀ a n : ℚ, avg_overtime_noised a n = a + n) ∧
    avg_overtime_noised 0 (-1) < 0 ∧
    (∀ (ps pe : ℤ) (t : ℕ) (store : List StatRow) (g : GroupRow) (u : ℚ × ℚ × ℚ)
      (s' : List StatRow), compute_aggregates_step ps pe t store g u = some s' →
      ∀ r ∈ s', r ∈ store ∨
        (0 ≤ r.avg_planned_hours_noised ∧ 0 ≤ r.avg_actual_hours_noised)) := by
  refine ⟨fun a n => ⟨rfl, le_max_left 0 _⟩, fun a n => ⟨rfl, le_max_left 0 _⟩,
    fun a n => rfl, by norm_num [avg_overtime_noised], ?_⟩
  intro ps pe t store g u s' hstep r hr
  by_cases hk : g.n_users < K_MIN
  · rw [step_suppressed hk ps pe t store u] at hstep
    rw [← Option.some.inj hstep] at hr
    exact Or.inl hr
  · rw [step_accepted hk ps pe t store u] at hstep
    rcases upsert_mem hstep r hr with hmem | ⟨-, hp, ha, -⟩
    · exact Or.inl hmem
    · refine Or.inr ⟨?_, ?_⟩
      · rw [hp]
        exact roundTo2_nonneg (le_max_left 0 _)
      · rw [ha]
        exact roundTo2_nonneg (le_max_left 0 _)

/-- C7 witness: instantiation of the store clause at a suppressed step over a
one-row store. -/
theorem noised_clamping_witness :
    (⟨"DE", "BY", "icu", "senior", 0, 0, 11, 0, 0, 0, 11, 1, 0⟩ : StatRow) ∈
        [(⟨"DE", "BY", "icu", "senior", 0, 0, 11, 0, 0, 0, 11, 1, 0⟩ : StatRow)] ∨
      (0 ≤ (⟨"DE", "BY", "icu", "senior", 0, 0, 11, 0, 0, 0, 11, 1, 0⟩ :
          StatRow).avg_planned_hours_noised ∧
        0 ≤ (⟨"DE", "BY", "icu", "senior", 0, 0, 11, 0, 0, 0, 11, 1, 0⟩ :
          StatRow).avg_actual_hours_noised) :=
  noised_clamping.2.2.2.2 0 0 0
    [⟨"DE", "BY", "icu", "senior", 0, 0, 11, 0, 0, 0, 11, 1, 0⟩]
    ⟨"DE", "BY", "anaesthesia", "resident", 5, none, none⟩ (0, 0, 0)
    [⟨"DE", "BY", "icu", "senior", 0, 0, 11, 0, 0, 0, 11, 1, 0⟩]
    (by with_unfolding_all decide)
    ⟨"DE", "BY", "icu", "senior", 0, 0, 11, 0, 0, 0, 11, 1, 0⟩ (by simp)

/-! ### Analytics lemmas for C4, C8 and C10 -/

lemma swapIfInverted_ordered {p : Option ℚ × Option ℚ} {a b : ℚ}
    (ha : (swapIfInverted p).1 = some a) (hb : (swapIfInverted p).2 = some b) :
    a ≤ b := by
  rcases p with ⟨lo, hi⟩
  rcases lo with - | x
  · simp only [swapIfInverted] at ha
    cases ha
  · rcases hi with - | y
    · simp only [swapIfInverted] at hb
      cases hb
    · simp only [swapIfInverted] at ha hb
      by_cases hyx : y < x
      · rw [if_pos hyx] at ha hb
        obtain rfl : y = a := Option.some.inj ha
        obtain rfl : x = b := Option.some.inj hb
        exact hyx.le
      · rw [if_neg hyx] at ha hb
        obtain rfl : x = a := Option.some.inj ha
        obtain rfl : y = b := Option.some.inj hb
        exact not_lt.mp hyx

/-- C8: in every metrics dictionary produced by `_compute_metrics`, a
confidence-interval pair whose two bounds are both non-null satisfies
lower ≤ upper: the swap after independent noising repairs any inversion. -/
theorem ci_bounds_ordered (actual_samples overtime_samples : List ℚ) (count : ℕ)
    (suppressed : Bool) (pickA pickO : ℕ → ℕ → ℕ) (nAL nAH nOL nOH : ℚ) :
    (∀ a b : ℚ,
      (compute_metrics actual_samples overtime_samples count suppressed pickA pickO
        nAL nAH nOL nOH).ci_actual_low = some a →
      (compute_metrics actual_samples overtime_samples count suppressed pickA pickO
        nAL nAH nOL nOH).ci_actual_high = some b → a ≤ b) ∧
    (∀ a b : ℚ,
      (compute_metrics actual_samples overtime_samples count suppressed pickA pickO
        nAL nAH nOL nOH).ci_overtime_low = some a →
      (compute_metrics actual_samples overtime_samples count suppressed pickA pickO
        nAL nAH nOL nOH).ci_overtime_high = some b → a ≤ b) := by
  by_cases hs : (suppressed || count == 0) = true
  · constructor <;>
      · intro a b ha hb
        rw [compute_metrics, if_pos hs] at ha
        cases ha
  · constructor <;>
      · intro a b ha hb
        rw [compute_metrics, if_neg hs] at ha hb
        simp only [safe_float, Option.map_eq_some'] at ha hb
        obtain ⟨a0, ha0, rfl⟩ := ha
        obtain ⟨b0, hb0, rfl⟩ := hb
        exact roundTo2_mono (swapIfInverted_ordered ha0 hb0)

/-- C8 witness: instantiation at a one-sample group with zero noise draws. -/
theorem ci_bounds_ordered_witness : (3 : ℚ) ≤ 3 ∧ (4 : ℚ) ≤ 4 :=
  ⟨(ci_bounds_ordered [3] [4] 1 false (fun _ _ => 0) (fun _ _ => 0) 0 0 0 0).1 3 3
      (by with_unfolding_all decide) (by with_unfolding_all decide),
    (ci_bounds_ordered [3] [4] 1 false (fun _ _ => 0) (fun _ _ => 0) 0 0 0 0).2 4 4
      (by with_unfolding_all decide) (by with_unfolding_all decide)⟩

/-- C10: the bootstrap analytics path does not drop suppressed groups: every
query row yields a summary (same length, membership preserved), and for a row
whose report count is below SUPPRESSION_THRESHOLD = 5 the summary still
carries the exact raw report count together with suppressed = true, while the
average, total and confidence-interval fields are all null — so suppression
exposes the group's existence and raw count. -/
theorem analytics_suppression_keeps_group :
    (∀ rows : List (ReportMonthRow × AnalyticsRand),
      (fetch_hospital_monthly rows).length = rows.length) ∧
    (∀ (rows : List (ReportMonthRow × AnalyticsRand)) (row : ReportMonthRow)
      (rand : AnalyticsRand), (row, rand) ∈ rows →
      row.report_count < SUPPRESSION_THRESHOLD →
      mkHospitalMonthlySummary row rand ∈ fetch_hospital_monthly rows ∧
      (mkHospitalMonthlySummary row rand).report_count = row.report_count ∧
      (mkHospitalMonthlySummary row rand).suppressed = true ∧
      (mkHospitalMonthlySummary row rand).average_actual_hours = none ∧
      (mkHospitalMonthlySummary row rand).average_overtime_hours = none ∧
      (mkHospitalMonthlySummary row rand).total_actual_hours = none ∧
      (mkHospitalMonthlySummary row rand).total_overtime_hours = none ∧
      (mkHospitalMonthlySummary row rand).ci_actual_low = none ∧
      (mkHospitalMonthlySummary row rand).ci_actual_high = none ∧
      (mkHospitalMonthlySummary row rand).ci_overtime_low = none ∧
      (mkHospitalMonthlySummary row rand).ci_overtime_high = none) := by
  constructor
  · intro rows
    exact List.length_map _ _
  · intro rows row rand hmem hcount
    have hsup : decide (row.report_count < SUPPRESSION_THRESHOLD) = true :=
      decide_eq_true hcount
    refine ⟨List.mem_map.mpr ⟨(row, rand), hmem, rfl⟩,
      ?_, ?_, ?_, ?_, ?_, ?_, ?_, ?_, ?_, ?_⟩ <;>
      simp [mkHospitalMonthlySummary, hsup]

/-- C10 witness: a group of 3 reports stays in the response with its raw count
and suppressed = true. -/
theorem analytics_suppression_keeps_group_witness :
    mkHospitalMonthlySummary ⟨"uka", "ASSISTANT_DOCTOR", 0, 3, none, none, none, none⟩
        ⟨fun _ _ => 0, fun _ _ => 0, 0, 0, 0, 0⟩ ∈
      fetch_hospital_monthly
        [(⟨"uka", "ASSISTANT_DOCTOR", 0, 3, none, none, none, none⟩,
          ⟨fun _ _ => 0, fun _ _ => 0, 0, 0, 0, 0⟩)] ∧
    (mkHospitalMonthlySummary ⟨"uka", "ASSISTANT_DOCTOR", 0, 3, none, none, none, none⟩
        ⟨fun _ _ => 0, fun _ _ => 0, 0, 0, 0, 0⟩).report_count = 3 ∧
    (mkHospitalMonthlySummary ⟨"uka", "ASSISTANT_DOCTOR", 0, 3, none, none, none, none⟩
        ⟨fun _ _ => 0, fun _ _ => 0, 0, 0, 0, 0⟩).suppressed = true ∧
    (mkHospitalMonthlySummary ⟨"uka", "ASSISTANT_DOCTOR", 0, 3, none, none, none, none⟩
        ⟨fun _ _ => 0, fun _ _ => 0, 0, 0, 0, 0⟩).average_actual_hours = none ∧
    (mkHospitalMonthlySummary ⟨"uka", "ASSISTANT_DOCTOR", 0, 3, none, none, none, none⟩
        ⟨fun _ _ => 0, fun _ _ => 0, 0, 0, 0, 0⟩).average_overtime_hours = none ∧
    (mkHospitalMonthlySummary ⟨"uka", "ASSISTANT_DOCTOR", 0, 3, none, none, none, none⟩
        ⟨fun _ _ => 0, fun _ _ => 0, 0, 0, 0, 0⟩).total_actual_hours = none ∧
    (mkHospitalMonthlySummary ⟨"uka", "ASSISTANT_DOCTOR", 0, 3, none, none, none, none⟩
        ⟨fun _ _ => 0, fun _ _ => 0, 0, 0, 0, 0⟩).total_overtime_hours = none ∧
    (mkHospitalMonthlySummary ⟨"uka", "ASSISTANT_DOCTOR", 0, 3, none, none, none, none⟩
        ⟨fun _ _ => 0, fun _ _ => 0, 0, 0, 0, 0⟩).ci_actual_low = none ∧
    (mkHospitalMonthlySummary ⟨"uka", "ASSISTANT_DOCTOR", 0, 3, none, none, none, none⟩
        ⟨fun _ _ => 0, fun _ _ => 0, 0, 0, 0, 0⟩).ci_actual_high = none ∧
    (mkHospitalMonthlySummary ⟨"uka", "ASSISTANT_DOCTOR", 0, 3, none, none, none, none⟩
        ⟨fun _ _ => 0, fun _ _ => 0, 0, 0, 0, 0⟩).ci_overtime_low = none ∧
    (mkHospitalMonthlySummary ⟨"uka", "ASSISTANT_DOCTOR", 0, 3, none, none, none, none⟩
        ⟨fun _ _ => 0, fun _ _ => 0, 0, 0, 0, 0⟩).ci_overtime_high = none :=
  (analytics_suppression_keeps_group.2
    [(⟨"uka", "ASSISTANT_DOCTOR", 0, 3, none, none, none, none⟩,
      ⟨fun _ _ => 0, fun _ _ => 0, 0, 0, 0, 0⟩)]
    ⟨"uka", "ASSISTANT_DOCTOR", 0, 3, none, none, none, none⟩
    ⟨fun _ _ => 0, fun _ _ => 0, 0, 0, 0, 0⟩ (by simp) (by decide))

set_option maxRecDepth 8000 in
/-- C4 counterexample: at samples 0..40, R = 41 resamples (the i-th resample
drawing only the i-th sample, so the sorted means are 0..40) and alpha = 1/20,
the code returns the sorted means at indices 0 and 39, while the claimed
index pair floor(alpha/2*R) and ceil((1-alpha/2)*R) capped at R-1 selects
indices 1 and 40: the claimed selection rule disagrees with the code. -/
theorem bootstrap_ci_claimed_indices_counterexample :
    bootstrap_ci ((List.range 41).map fun i => (i : ℚ)) 41 (1 / 20) (fun i _ => i) =
        (some 0, some 39) ∧
      bootstrap_ci_claimed ((List.range 41).map fun i => (i : ℚ)) 41 (1 / 20)
          (fun i _ => i) = (some 1, some 40) ∧
      bootstrap_ci ((List.range 41).map fun i => (i : ℚ)) 41 (1 / 20) (fun i _ => i) ≠
        bootstrap_ci_claimed ((List.range 41).map fun i => (i : ℚ)) 41 (1 / 20)
          (fun i _ => i) := by
  refine ⟨?_, ?_, ?_⟩ <;> with_unfolding_all decide

/-- C4 (amended): for a sample list with at least two elements, R ≥ 1 resamples
and a significance level alpha in [0, 1], `_bootstrap_ci` computes the R
resample means, sorts them, and returns the sorted means at index
max(floor(alpha/2 * R) - 1, 0) and at index floor((1 - alpha/2) * R) capped at
R - 1 (`int()` truncation coincides with floor on these non-negative
quantities); both indices are in range and the lower index never exceeds the
upper one. -/
theorem bootstrap_ci_index_formula (samples : List ℚ) (iterations : ℕ)
    (alpha : ℚ) (pick : ℕ → ℕ → ℕ) (h2 : 2 ≤ samples.length)
    (hR : 1 ≤ iterations) (hα0 : 0 ≤ alpha) (hα1 : alpha ≤ 1) :
    ∃ sorted : List ℚ, sorted.Sorted (· ≤ ·) ∧
      sorted.Perm (resample_means samples iterations pick) ∧
      sorted.length = iterations ∧
      bootstrap_ci samples iterations alpha pick =
        (some (sorted.getD (max (⌊alpha / 2 * (iterations : ℚ)⌋ - 1) 0).toNat 0),
         some (sorted.getD (min ⌊(1 - alpha / 2) * (iterations : ℚ)⌋
            ((iterations : ℤ) - 1)).toNat 0)) ∧
      max (⌊alpha / 2 * (iterations : ℚ)⌋ - 1) 0 ≤
        min ⌊(1 - alpha / 2) * (iterations : ℚ)⌋ ((iterations : ℤ) - 1) ∧
      min ⌊(1 - alpha / 2) * (iterations : ℚ)⌋ ((iterations : ℤ) - 1) <
        (iterations : ℤ) := by
  rcases samples with - | ⟨a, - | ⟨b, rest⟩⟩
  · simp at h2
  · simp at h2
  have e1 : int_trunc (alpha / 2 * iterations) = ⌊alpha / 2 * (iterations : ℚ)⌋ :=
    int_trunc_of_nonneg (by positivity)
  have e2 : int_trunc ((1 - alpha / 2) * iterations) =
      ⌊(1 - alpha / 2) * (iterations : ℚ)⌋ :=
    int_trunc_of_nonneg (mul_nonneg (by linarith) (by positivity))
  have hR0 : (0 : ℚ) ≤ (iterations : ℚ) := by positivity
  have hl0 : 0 ≤ ⌊alpha / 2 * (iterations : ℚ)⌋ :=
    Int.le_floor.mpr (by push_cast; positivity)
  have hu0 : 0 ≤ ⌊(1 - alpha / 2) * (iterations : ℚ)⌋ :=
    Int.le_floor.mpr (by push_cast; exact mul_nonneg (by linarith) hR0)
  have hle : ⌊alpha / 2 * (iterations : ℚ)⌋ ≤ ⌊(1 - alpha / 2) * (iterations : ℚ)⌋ := by
    apply Int.floor_mono
    nlinarith
  have hlR : ⌊alpha / 2 * (iterations : ℚ)⌋ ≤ (iterations : ℤ) := by
    have h1 := Int.floor_le (alpha / 2 * (iterations : ℚ))
    have hup : alpha / 2 * (iterations : ℚ) ≤ (iterations : ℚ) := by nlinarith
    have h3 : (⌊alpha / 2 * (iterations : ℚ)⌋ : ℚ) ≤ (iterations : ℚ) :=
      le_trans h1 hup
    exact_mod_cast h3
  refine ⟨(resample_means (a :: b :: rest) iterations pick).insertionSort (· ≤ ·),
    List.sorted_insertionSort _ _, List.perm_insertionSort _ _, ?_, ?_, ?_, ?_⟩
  · rw [(List.perm_insertionSort _ _).length_eq, resample_means, List.length_map,
      List.length_range]
  · simp only [bootstrap_ci, e1, e2]
  · omega
  · omega

/-- C4 witness: the amended index formula applied at samples [0, 1], one
resample and alpha = 1/20. -/
theorem bootstrap_ci_index_formula_witness :
    ∃ sorted : List ℚ, sorted.Sorted (· ≤ ·) ∧
      sorted.Perm (resample_means [0, 1] 1 fun _ _ => 0) ∧
      sorted.length = 1 ∧
      bootstrap_ci [0, 1] 1 (1 / 20) (fun _ _ => 0) =
        (some (sorted.getD (max (⌊(1 : ℚ) / 20 / 2 * ((1 : ℕ) : ℚ)⌋ - 1) 0).toNat 0),
         some (sorted.getD (min ⌊(1 - (1 : ℚ) / 20 / 2) * ((1 : ℕ) : ℚ)⌋
            (((1 : ℕ) : ℤ) - 1)).toNat 0)) ∧
      max (⌊(1 : ℚ) / 20 / 2 * ((1 : ℕ) : ℚ)⌋ - 1) 0 ≤
        min ⌊(1 - (1 : ℚ) / 20 / 2) * ((1 : ℕ) : ℚ)⌋ (((1 : ℕ) : ℤ) - 1) ∧
      min ⌊(1 - (1 : ℚ) / 20 / 2) * ((1 : ℕ) : ℚ)⌋ (((1 : ℕ) : ℤ) - 1) <
        ((1 : ℕ) : ℤ) :=
  bootstrap_ci_index_formula [0, 1] 1 (1 / 20) (fun _ _ => 0) (by decide) (by decide)
    (by norm_num) (by norm_num)
